import Mathlib

set_option maxRecDepth 100000

/-!
Shallow embedding of `src/utils/gpu_video_extractor.py` (class
`GPUVideoFrameExtractor`), the core of the engagement-analysis frame
extraction pipeline, together with proofs settling the frozen claims.

Modelling conventions:
* Wall-clock instants are naive `datetime` values; we model them as calendar
  fields (`DateTime`) and convert to absolute seconds with the proleptic
  Gregorian day-count formula, which is exactly the semantics of Python
  `datetime` subtraction (`total_seconds`).  Both the Excel timestamps
  (`%d/%m/%Y %H:%M:%S`) and the parsed video start times
  (`%Y-%m-%d %H-%M-%S`) are whole-second instants, so elapsed offsets are
  integral numbers of seconds; frame rates are arbitrary rationals.
* Python floats are modelled as rationals `ℚ`; `int(x)` on the nonnegative
  values arising in the code is `(⌊x⌋).toNat`.
* A `cv2.VideoCapture` is modelled by `Video`: a reported fps, a reported
  frame count (`CAP_PROP_FRAME_COUNT` as truncated to int by the code), and
  the number of actually decodable frames `nFrames`.  A read at position `p`
  yields frame number `p` iff `p < nFrames`.  In both extraction loops every
  read sequence is preceded by a seek to a known position (direct seeks in
  the GPU path, one seek per time bucket followed by consecutive reads in the
  memory-efficient path), so the decoder position is fully determined and the
  stateless `frameAt` view is observationally exact.
* Side effects (seeks, `cv2.imwrite` calls, appends to `results`) are
  recorded as an event trace; the function result returned to the caller is
  the projection of the trace to its emitted `(success, message)` outcomes.
  `imwrite` success is environment-determined via `Env.writeOk`.
* `glob.glob` over the video folder is modelled as filtering the directory
  listing with the pattern `prefixPart*suffixPart` (the only shape the code
  uses); matches come back in directory-listing order.
* Python's `sorted` is a stable sort; `sortStable` is a stable insertion
  sort, which produces the same ordering as any stable sort for a total
  preorder key.
* `defaultdict(list)` with appends is an insertion-ordered association list
  (`dictAppend`).
-/

/-- Decimal digits of a natural number, as printed by Python `str`/f-strings. -/
def natChars (n : ℕ) : List Char :=
  Nat.toDigits 10 n

/-- Zero-padded two-digit field, as produced by `strftime` (`%m`, `%d`, `%H`, `%M`, `%S`). -/
def pad2 (n : ℕ) : List Char :=
  if n < 10 then '0' :: natChars n else natChars n

/-- Zero-padded four-digit year, as produced by `strftime` (`%Y`). -/
def pad4 (n : ℕ) : List Char :=
  if n < 10 then '0' :: '0' :: '0' :: natChars n
  else if n < 100 then '0' :: '0' :: natChars n
  else if n < 1000 then '0' :: natChars n
  else natChars n

/-- Whether `p` is a leading segment of `l` (character-by-character). -/
def leadsList : List Char → List Char → Bool
  | [], _ => true
  | _ :: _, [] => false
  | a :: as, b :: bs => a = b && leadsList as bs

/-- Matching a name against the glob pattern `pre*suf` (a single `*`, no other
metacharacters): the name must start with `pre`, end with `suf`, and be long
enough that the two parts do not overlap. -/
def globMatch (pre suf name : List Char) : Bool :=
  leadsList pre name && leadsList suf.reverse name.reverse &&
    decide (pre.length + suf.length ≤ name.length)

/-- The part of `cs` after the first occurrence of `c` (Python
`cs.split(c, 1)[1]`); `none` when `c` does not occur (in the source that
indexing raises and is caught by the surrounding `except`). -/
def afterChar (c : Char) : List Char → Option (List Char)
  | [] => none
  | x :: xs => if x = c then some xs else afterChar c xs

/-- The part of a path after the last `/` (`os.path.basename`). -/
def basenameOf (cs : List Char) : List Char :=
  (cs.reverse.takeWhile (fun c => ¬(c = '/'))).reverse

/-- Everything before the last `.` (Python `cs.rsplit('.', 1)[0]`); when there
is no dot the whole string. -/
def dropLastExt (cs : List Char) : List Char :=
  match afterChar '.' cs.reverse with
  | some rest => rest.reverse
  | none => cs

/-- Read exactly `k` decimal digits, returning the accumulated value and the
remaining characters. -/
def parseNatFixed : ℕ → ℕ → List Char → Option (ℕ × List Char)
  | 0, acc, cs => some (acc, cs)
  | _ + 1, _, [] => none
  | k + 1, acc, c :: cs =>
    if c.isDigit then parseNatFixed k (acc * 10 + (c.toNat - 48)) cs else none

/-- Consume one expected character. -/
def expectChar (c : Char) : List Char → Option (List Char)
  | [] => none
  | x :: xs => if x = c then some xs else none

/-- Gregorian leap-year test, as in Python's `calendar`/`datetime`. -/
def isLeapYear (y : ℕ) : Bool :=
  (y % 4 = 0 && ¬(y % 100 = 0)) || y % 400 = 0

/-- Number of days in a month of the proleptic Gregorian calendar. -/
def daysInMonth (y m : ℕ) : ℕ :=
  if m = 2 then (if isLeapYear y then 29 else 28)
  else if m = 4 ∨ m = 6 ∨ m = 9 ∨ m = 11 then 30
  else 31

/-- Days since 1970-01-01 of a proleptic Gregorian date (the civil-date
day-count formula); this is the day arithmetic underlying Python `datetime`
subtraction. -/
def daysFromCivil (y m d : ℤ) : ℤ :=
  let yy : ℤ := if m ≤ 2 then y - 1 else y
  let era : ℤ := Int.fdiv yy 400
  let yoe : ℤ := yy - era * 400
  let mp : ℤ := Int.fdiv (153 * (if 2 < m then m - 3 else m + 9) + 2) 5
  let doy : ℤ := mp + d - 1
  let doe : ℤ := yoe * 365 + Int.fdiv yoe 4 - Int.fdiv yoe 100 + doy
  era * 146097 + doe - 719468

/-- A naive `datetime.datetime` instant (whole seconds: both timestamp
sources in this program parse whole-second formats). -/
structure DateTime where
  year : ℕ
  month : ℕ
  day : ℕ
  hour : ℕ
  minute : ℕ
  second : ℕ
deriving DecidableEq, Repr

/-- Absolute seconds since the epoch; `datetime` subtraction is the
difference of these values. -/
def DateTime.toSecs (dt : DateTime) : ℤ :=
  daysFromCivil dt.year dt.month dt.day * 86400
    + dt.hour * 3600 + dt.minute * 60 + dt.second

/-- One row of the Excel log, as assembled by `group_records_by_video`:
`{'index': index, 'user_id': ..., 'timestamp': ..., 'page': ...}`. -/
structure Record where
  idx : ℕ
  user_id : ℕ
  timestamp : DateTime
  page : String
deriving DecidableEq, Repr

/-- Elapsed offset `(record['timestamp'] - video_start_time).total_seconds()` as a rational. -/
def elapsedSecs (ts vstart : DateTime) : ℚ :=
  ((ts.toSecs - vstart.toSecs : ℤ) : ℚ)

/-- Decoder-level behaviour of one video file (`cv2.VideoCapture`):
whether it opens, the reported `CAP_PROP_FPS`, the reported
`int(CAP_PROP_FRAME_COUNT)` (0 when the container does not report a count),
and the number of frames that can actually be decoded. -/
structure Video where
  opened : Bool
  fps : ℚ
  reportedFrames : ℤ
  nFrames : ℕ

/-- Reading at decoder position `p`: succeeds and yields frame number `p`
iff `p` is within the decodable range. -/
def frameAt (v : Video) (p : ℕ) : Option ℕ :=
  if p < v.nFrames then some p else none

/-- The environment of one `GPUVideoFrameExtractor` run: the video folder
listing, the decoder behaviour of each file, whether `cv2.imwrite` succeeds
for a given output path and frame, and the output folder path. -/
structure Env where
  dir : List (List Char)
  video : List Char → Video
  writeOk : List Char → ℕ → Bool
  outDir : List Char

/-- The failure messages produced by the extractor, one constructor per
distinct message in the source (dynamic parts kept as payloads). -/
inductive FailMsg where
  | couldNotOpenVideo : FailMsg
  | timestampBeforeStart : FailMsg
  | couldNotReadFrame : ℚ → FailMsg
  | couldNotSaveFrameTo : List Char → FailMsg
  | frameBeyondDuration : FailMsg
  | noFrameFound : FailMsg
  | couldNotSaveFrame : FailMsg
  | couldNotParseStartTime : FailMsg
deriving DecidableEq, Repr

/-- One `(success, message)` pair appended to a strategy's `results` list. -/
inductive Outcome where
  | ok : List Char → Outcome
  | err : FailMsg → Outcome
deriving DecidableEq, Repr

/-- Whether an outcome is the success case. -/
def Outcome.isOk : Outcome → Bool
  | Outcome.ok _ => true
  | Outcome.err _ => false

/-- Observable decoder/file-system actions of a strategy, in execution
order: seeks (`cap.set(CAP_PROP_POS_FRAMES, _)`), frame writes
(`cv2.imwrite`), and appends to the `results` list. -/
inductive Event where
  | seek : ℕ → Event
  | write : List Char → ℕ → Event
  | emit : Outcome → Event
deriving DecidableEq, Repr

/-- Project an event trace entry to the appended outcome, if any. -/
def outcomeOf : Event → Option Outcome
  | Event.emit o => some o
  | _ => none

/-- Project an event trace entry to the seek position, if any. -/
def seekOf : Event → Option ℕ
  | Event.seek n => some n
  | _ => none

/-- The fixed `page_mapping` table with its `'challenge_unknown'` default. -/
def pageMapping (page : String) : String :=
  if page = "/tantangan/penjumlahan-dua-angka" then ("challenge1")
  else if page = "/tantangan/status-http" then ("challenge2")
  else ("challenge_unknown")

/-- Source `generate_output_filename`: `f"user{user_id}_{challenge}_time{HHMMSS}.jpg"`. -/
def generate_output_filename (user_id : ℕ) (timestamp : DateTime) (page : String) : List Char :=
  "user".data ++ natChars user_id ++ ['_'] ++ (pageMapping page).data ++ "_time".data
    ++ pad2 timestamp.hour ++ pad2 timestamp.minute ++ pad2 timestamp.second ++ ".jpg".data

/-- Output path `os.path.join(self.output_folder_path, output_filename)`. -/
def outPath (cfg : Env) (r : Record) : List Char :=
  cfg.outDir ++ ['/'] ++ generate_output_filename r.user_id r.timestamp r.page

/-- The hour-specific search pattern head `f"user{user_id}-{date_str} {hour_str}-"`. -/
def userHourPre (uid : ℕ) (ts : DateTime) : List Char :=
  "user".data ++ natChars uid ++ ['-'] ++ pad4 ts.year ++ ['-'] ++ pad2 ts.month
    ++ ['-'] ++ pad2 ts.day ++ [' '] ++ pad2 ts.hour ++ ['-']

/-- The date-only search pattern head `f"user{user_id}-{date_str}"`. -/
def userDatePre (uid : ℕ) (ts : DateTime) : List Char :=
  "user".data ++ natChars uid ++ ['-'] ++ pad4 ts.year ++ ['-'] ++ pad2 ts.month
    ++ ['-'] ++ pad2 ts.day

/-- Source `find_video_file`: try the hour-specific `.mp4` then `.mkv` patterns,
then fall back to the date-only patterns (`.mp4` matches extended with
`.mkv` matches), returning the first match of the first nonempty result. -/
def find_video_file (cfg : Env) (uid : ℕ) (ts : DateTime) : Option (List Char) :=
  match cfg.dir.filter (fun n => globMatch (userHourPre uid ts) (".mp4".data) n) with
  | f :: _ => some f
  | [] =>
    match cfg.dir.filter (fun n => globMatch (userHourPre uid ts) (".mkv".data) n) with
    | f :: _ => some f
    | [] =>
      match cfg.dir.filter (fun n => globMatch (userDatePre uid ts) (".mp4".data) n)
          ++ cfg.dir.filter (fun n => globMatch (userDatePre uid ts) (".mkv".data) n) with
      | f :: _ => some f
      | [] => none

/-- Source `extract_video_start_time`: strip the directory and `user{id}-` head and
the extension, then `strptime(..., '%Y-%m-%d %H-%M-%S')` (with `datetime`'s
field-range validation); any parse failure is caught and yields `None`. -/
def extract_video_start_time (path : List Char) : Option DateTime := do
  let rest ← afterChar '-' (basenameOf path)
  let cs := dropLastExt rest
  let (y, cs) ← parseNatFixed 4 0 cs
  let cs ← expectChar '-' cs
  let (mo, cs) ← parseNatFixed 2 0 cs
  let cs ← expectChar '-' cs
  let (d, cs) ← parseNatFixed 2 0 cs
  let cs ← expectChar ' ' cs
  let (h, cs) ← parseNatFixed 2 0 cs
  let cs ← expectChar '-' cs
  let (mi, cs) ← parseNatFixed 2 0 cs
  let cs ← expectChar '-' cs
  let (s, cs) ← parseNatFixed 2 0 cs
  if cs = [] ∧ 1 ≤ mo ∧ mo ≤ 12 ∧ 1 ≤ d ∧ d ≤ daysInMonth y mo
      ∧ h ≤ 23 ∧ mi ≤ 59 ∧ s ≤ 59 then
    some ⟨y, mo, d, h, mi, s⟩
  else none

/-- Insert `x` after every already-placed element whose key is `≤ x`'s key:
the insertion step of a stable sort. -/
def insertSorted {α : Type} (le : α → α → Bool) (x : α) : List α → List α
  | [] => [x]
  | y :: ys => if le y x then y :: insertSorted le x ys else x :: y :: ys

/-- Stable sort (same ordering as Python's stable `sorted` for a total
preorder key). -/
def sortStable {α : Type} (le : α → α → Bool) (l : List α) : List α :=
  l.foldl (fun acc x => insertSorted le x acc) []

/-- The key comparison of `sorted(records, key=lambda x: x['timestamp'])`. -/
def recLe (a b : Record) : Bool :=
  decide (a.timestamp.toSecs ≤ b.timestamp.toSecs)

/-- Loop body of `extract_frames_opencv_gpu` for one record: classify the
elapsed offset, seek directly to `int(time_offset * fps)`, read one frame,
and write it out. -/
def opencvRecord (cfg : Env) (v : Video) (fps : ℚ) (vstart : DateTime) (r : Record) :
    List Event :=
  let t := elapsedSecs r.timestamp vstart
  if t < 0 then [Event.emit (Outcome.err FailMsg.timestampBeforeStart)]
  else
    let n := (⌊t * fps⌋).toNat
    Event.seek n ::
      match frameAt v n with
      | none => [Event.emit (Outcome.err (FailMsg.couldNotReadFrame t))]
      | some fr =>
        let p := outPath cfg r
        Event.write p fr ::
          (if cfg.writeOk p fr then [Event.emit (Outcome.ok p)]
           else [Event.emit (Outcome.err (FailMsg.couldNotSaveFrameTo p))])

/-- Event trace of `extract_frames_opencv_gpu` (the DirectSeek strategy):
open the capture, fall back to fps 30 when the reported rate is not positive,
and process the records sorted by timestamp. -/
def opencvEvents (cfg : Env) (vpath : List Char) (records : List Record)
    (vstart : DateTime) : List Event :=
  let v := cfg.video vpath
  if v.opened = false then
    records.map (fun _ => Event.emit (Outcome.err FailMsg.couldNotOpenVideo))
  else
    let fps := if v.fps ≤ 0 then (30 : ℚ) else v.fps
    ((sortStable recLe records).map (opencvRecord cfg v fps vstart)).flatten

/-- Source `extract_frames_opencv_gpu`, as seen by its caller: the emitted
`(success, message)` list. -/
def extract_frames_opencv_gpu (cfg : Env) (vpath : List Char) (records : List Record)
    (vstart : DateTime) : List Outcome :=
  (opencvEvents cfg vpath records vstart).filterMap outcomeOf

/-- Accumulator step of the closest-frame scan (`min_diff` starts at
infinity, so the running state after at least one element is the best pair
with its difference; a later frame replaces it only on a strictly smaller
difference). -/
def pickClosestAux (t : ℚ) : List (ℚ × ℕ) → ℚ × (ℚ × ℕ) → ℚ × (ℚ × ℕ)
  | [], best => best
  | x :: xs, best =>
    if |x.1 - t| < best.1 then pickClosestAux t xs (|x.1 - t|, x)
    else pickClosestAux t xs best

/-- The closest-frame selection loop of `extract_frames_memory_efficient`
(lines 238-245): scan the buffer keeping the first entry achieving the
minimal `|frame_time - time_offset|`.  The source retains only the frame;
we retain the whole buffer entry, whose second component is that frame. -/
def pickClosest (t : ℚ) : List (ℚ × ℕ) → Option (ℚ × ℕ)
  | [] => none
  | x :: xs => some (pickClosestAux t xs (|x.1 - t|, x)).2

/-- The buffered read loop: starting at decoder position `start`, read
consecutively while frames remain (`break` on the first failed read), tagging
the `i`-th frame with `second + i / fps`. -/
def readLoop (v : Video) (fps : ℚ) (second start : ℕ) : ℕ → ℕ → List (ℚ × ℕ)
  | _, 0 => []
  | i, fuel + 1 =>
    match frameAt v (start + i) with
    | some fr => ((second : ℚ) + (i : ℚ) / fps, fr) :: readLoop v fps second start (i + 1) fuel
    | none => []

/-- Buffer `frames_buffer` for one second bucket: up to `int(fps) + 1` consecutive
frames from the bucket's starting position. -/
def readBuffer (v : Video) (fps : ℚ) (second start : ℕ) : List (ℚ × ℕ) :=
  readLoop v fps second start 0 ((⌊fps⌋).toNat + 1)

/-- Append semantics of `defaultdict(list)`: extend the entry at key `k` (keeping
insertion order of keys) or create it at the end. -/
def dictAppend {κ α : Type} [DecidableEq κ] :
    List (κ × List α) → κ → α → List (κ × List α)
  | [], k, x => [(k, [x])]
  | (k2, xs) :: rest, k, x =>
    if k2 = k then (k2, xs ++ [x]) :: rest else (k2, xs) :: dictAppend rest k x

/-- Source `time_groups` construction: bucket each record by the integer second of its elapsed
offset, keeping `(time_offset, record)` pairs; negative offsets are skipped
(lines 211-215 of the source append nothing for them). -/
def timeGroups (vstart : DateTime) (records : List Record) :
    List (ℕ × List (ℚ × Record)) :=
  records.foldl
    (fun m r =>
      let t := elapsedSecs r.timestamp vstart
      if 0 ≤ t then dictAppend m ((⌊t⌋).toNat) (t, r) else m)
    []

/-- Key order for `sorted(time_groups.keys())`. -/
def bucketLe (a b : ℕ × List (ℚ × Record)) : Bool :=
  decide (a.1 ≤ b.1)

/-- Per-record tail of a bucket: select the buffered frame closest to the
record's offset and write it out. -/
def memRecordEvents (cfg : Env) (buf : List (ℚ × ℕ)) (tr : ℚ × Record) : List Event :=
  match pickClosest tr.1 buf with
  | none => [Event.emit (Outcome.err FailMsg.noFrameFound)]
  | some q =>
    let p := outPath cfg tr.2
    Event.write p q.2 ::
      (if cfg.writeOk p q.2 then [Event.emit (Outcome.ok p)]
       else [Event.emit (Outcome.err FailMsg.couldNotSaveFrame)])

/-- One second bucket of `extract_frames_memory_efficient`: skip entirely
(`Frame beyond video duration` for each member) when `second * fps` reaches
the reported frame count, otherwise seek once to `int(second * fps)`, fill
the buffer, and resolve every member against it. -/
def bucketEvents (cfg : Env) (v : Video) (fps : ℚ) (grp : ℕ × List (ℚ × Record)) :
    List Event :=
  if (v.reportedFrames : ℚ) ≤ (grp.1 : ℚ) * fps then
    grp.2.map (fun _ => Event.emit (Outcome.err FailMsg.frameBeyondDuration))
  else
    let start := (⌊(grp.1 : ℚ) * fps⌋).toNat
    Event.seek start ::
      (grp.2.map (memRecordEvents cfg (readBuffer v fps grp.1 start))).flatten

/-- Event trace of `extract_frames_memory_efficient` (the BufferedWindow
strategy): open the capture, read the reported fps and frame count, fall
back to fps 30, bucket the records by second, and process the buckets in
ascending key order. -/
def memEvents (cfg : Env) (vpath : List Char) (records : List Record)
    (vstart : DateTime) : List Event :=
  let v := cfg.video vpath
  if v.opened = false then
    records.map (fun _ => Event.emit (Outcome.err FailMsg.couldNotOpenVideo))
  else
    let fps := if v.fps ≤ 0 then (30 : ℚ) else v.fps
    ((sortStable bucketLe (timeGroups vstart records)).map (bucketEvents cfg v fps)).flatten

/-- Source `extract_frames_memory_efficient`, as seen by its caller. -/
def extract_frames_memory_efficient (cfg : Env) (vpath : List Char)
    (records : List Record) (vstart : DateTime) : List Outcome :=
  (memEvents cfg vpath records vstart).filterMap outcomeOf

/-- Source `process_video_group`: parse the recording's start time from its file
name (a failure fails every record of the group), then dispatch on the
group-size threshold of 10 records. -/
def process_video_group (cfg : Env) (vpath : List Char) (records : List Record) :
    List Outcome :=
  match extract_video_start_time vpath with
  | none => records.map (fun _ => Outcome.err FailMsg.couldNotParseStartTime)
  | some vstart =>
    if 10 < records.length then extract_frames_memory_efficient cfg vpath records vstart
    else extract_frames_opencv_gpu cfg vpath records vstart

/-- Source `group_records_by_video`: resolve each record to a video path and append
it to that path's group; records with no resolvable video are dropped. -/
def group_records_by_video (cfg : Env) (records : List Record) :
    List (List Char × List Record) :=
  records.foldl
    (fun m r =>
      match find_video_file cfg r.user_id r.timestamp with
      | some p => dictAppend m p r
      | none => m)
    []

/-- The summary tallies of `process_all_records`: the number of `True` and of
`False` results collected over all groups (`successful_extractions`,
`failed_extractions`). -/
def process_all_records (cfg : Env) (records : List Record) : ℕ × ℕ :=
  let groups := group_records_by_video cfg records
  let all := (groups.map (fun g => process_video_group cfg g.1 g.2)).flatten
  (all.countP Outcome.isOk, all.countP (fun o => !(Outcome.isOk o)))

/-- Records for which `find_video_file` yields no path (these never enter any
group). -/
def unresolvedCount (cfg : Env) (records : List Record) : ℕ :=
  (records.filter (fun r => (find_video_file cfg r.user_id r.timestamp).isNone)).length

/-! Concrete instances used by the evaluation theorems and witnesses.
They realise the scenario of spec §8: user 7, recording
`user7-2023-05-01 10-15-00.mp4`, records at 10:15:32 (elapsed 32 s) and at
10:14:59 (elapsed -1 s). -/

/-- Timestamp 2023-05-01 10:15:32. -/
def tsA : DateTime := ⟨2023, 5, 1, 10, 15, 32⟩

/-- Recording start 2023-05-01 10:15:00. -/
def startA : DateTime := ⟨2023, 5, 1, 10, 15, 0⟩

/-- Timestamp 2023-05-01 10:14:59, one second before the recording start. -/
def tsNegA : DateTime := ⟨2023, 5, 1, 10, 14, 59⟩

/-- The recording file name of the scenario. -/
def fileA : List Char := "user7-2023-05-01 10-15-00.mp4".data

/-- A second recording of the same user and date but a different hour: it
matches only the date-only locator pattern for a 10-o'clock record. -/
def fileDateOnly : List Char := "user7-2023-05-01 09-00-00.mp4".data

/-- A fully working decoder: 30 fps, 2000 reported and decodable frames. -/
def vidFull : Video := { opened := true, fps := 30, reportedFrames := 2000, nFrames := 2000 }

/-- A decoder that reports no frame count (`CAP_PROP_FRAME_COUNT` = 0). -/
def vidUnknown : Video := { opened := true, fps := 30, reportedFrames := 0, nFrames := 0 }

/-- A decoder with the non-integer rate 3/2 and ten decodable frames. -/
def vidC6 : Video := { opened := true, fps := 3/2, reportedFrames := 10, nFrames := 10 }

/-- Environment whose folder holds the scenario recording, with a working
decoder and always-succeeding writes. -/
def envFull : Env :=
  { dir := [fileA], video := fun _ => vidFull, writeOk := fun _ _ => true, outDir := "o".data }

/-- Environment like `envFull` but whose decoder reports no frame count. -/
def envUnknown : Env :=
  { dir := [fileA], video := fun _ => vidUnknown, writeOk := fun _ _ => true, outDir := "o".data }

/-- Environment whose folder holds a date-only match before the hour match. -/
def envFind : Env :=
  { dir := [fileDateOnly, fileA], video := fun _ => vidFull, writeOk := fun _ _ => true,
    outDir := "o".data }

/-- A record of user 7 at 10:15:32 with index `i`. -/
def recA (i : ℕ) : Record := ⟨i, 7, tsA, "p"⟩

/-- A record of user 7 timestamped one second before the recording start. -/
def recNegA : Record := ⟨10, 7, tsNegA, "p"⟩

/-- Eleven records resolving to the scenario recording, the last one
timestamped before the recording start. -/
def recsEleven : List Record :=
  [recA 0, recA 1, recA 2, recA 3, recA 4, recA 5, recA 6, recA 7, recA 8, recA 9, recNegA]

/-- A buffer with a three-way tie: all entries at distance 1 from time 1. -/
def bufTie : List (ℚ × ℕ) := [((0 : ℚ), 5), ((2 : ℚ), 7), ((0 : ℚ), 9)]

/-- Ten identical records (a group at the threshold boundary). -/
def recsTen : List Record := List.replicate 10 (recA 0)

/-- Eleven identical records (a group just above the threshold boundary). -/
def recsElevenSame : List Record := List.replicate 11 (recA 0)

/-- Timestamp 2023-06-02 10:15:32: a different calendar date than `tsA` with
the same time of day. -/
def tsOtherDate : DateTime := ⟨2023, 6, 2, 10, 15, 32⟩

/-- The hour-specific locator predicate: the name matches one of the two
first-priority patterns of `find_video_file`. -/
def hourPatMatch (uid : ℕ) (ts : DateTime) (n : List Char) : Bool :=
  globMatch (userHourPre uid ts) (".mp4".data) n || globMatch (userHourPre uid ts) (".mkv".data) n

/-- The date-only locator predicate: the name matches one of the two
fallback patterns of `find_video_file`. -/
def datePatMatch (uid : ℕ) (ts : DateTime) (n : List Char) : Bool :=
  globMatch (userDatePre uid ts) (".mp4".data) n || globMatch (userDatePre uid ts) (".mkv".data) n

/-! Helper lemmas. -/

/-- The closest-frame scan never replaces the running best when no later
entry is strictly closer. -/
lemma pickClosestAux_keep (t : ℚ) (xs : List (ℚ × ℕ)) :
    ∀ (d : ℚ) (b : ℚ × ℕ), (∀ y ∈ xs, d ≤ |y.1 - t|) → pickClosestAux t xs (d, b) = (d, b) := by
  induction xs with
  | nil => intro d b _; rfl
  | cons x xs ih =>
    intro d b h
    simp only [pickClosestAux, if_neg (not_lt.2 (h x (List.mem_cons_self x xs)))]
    exact ih d b (fun y hy => h y (List.mem_cons_of_mem x hy))

/-- Full characterisation of the closest-frame scan: either the accumulator
survives (no strictly smaller difference occurs), or the result is the first
list entry achieving the minimum difference, which is strictly below the
incoming accumulator and strictly below every earlier entry. -/
lemma pickClosestAux_spec (t : ℚ) (xs : List (ℚ × ℕ)) :
    ∀ (d : ℚ) (b : ℚ × ℕ),
      (pickClosestAux t xs (d, b) = (d, b) ∧ ∀ y ∈ xs, d ≤ |y.1 - t|) ∨
      (∃ i, ∃ hi : i < xs.length,
        pickClosestAux t xs (d, b) = (|(xs.get ⟨i, hi⟩).1 - t|, xs.get ⟨i, hi⟩) ∧
        |(xs.get ⟨i, hi⟩).1 - t| < d ∧
        (∀ y ∈ xs, |(xs.get ⟨i, hi⟩).1 - t| ≤ |y.1 - t|) ∧
        (∀ j, ∀ hj : j < xs.length, j < i →
          |(xs.get ⟨i, hi⟩).1 - t| < |(xs.get ⟨j, hj⟩).1 - t|)) := by
  induction xs with
  | nil => intro d b; exact Or.inl ⟨rfl, by simp⟩
  | cons x xs ih =>
    intro d b
    by_cases hx : |x.1 - t| < d
    · simp only [pickClosestAux, if_pos hx]
      rcases ih (|x.1 - t|) x with ⟨heq, hall⟩ | ⟨i, hi, heq, hlt, hmin, hfirst⟩
      · refine Or.inr ⟨0, by simp, ?_, hx, ?_, ?_⟩
        · simpa using heq
        · intro y hy
          rcases List.mem_cons.mp hy with rfl | hy
          · simp
          · simpa using hall y hy
        · intro j hj hj0; omega
      · refine Or.inr ⟨i + 1, by simpa using Nat.succ_lt_succ hi, ?_, hlt.trans hx, ?_, ?_⟩
        · simpa using heq
        · intro y hy
          rcases List.mem_cons.mp hy with rfl | hy
          · simpa using hlt.le
          · simpa using hmin y hy
        · intro j hj hji
          cases j with
          | zero => simpa using hlt
          | succ j => exact hfirst j (by simpa using hj) (by omega)
    · simp only [pickClosestAux, if_neg hx]
      rcases ih d b with ⟨heq, hall⟩ | ⟨i, hi, heq, hlt, hmin, hfirst⟩
      · refine Or.inl ⟨heq, ?_⟩
        intro y hy
        rcases List.mem_cons.mp hy with rfl | hy
        · exact not_lt.mp hx
        · exact hall y hy
      · refine Or.inr ⟨i + 1, by simpa using Nat.succ_lt_succ hi, ?_, hlt, ?_, ?_⟩
        · simpa using heq
        · intro y hy
          rcases List.mem_cons.mp hy with rfl | hy
          · simpa using (hlt.trans_le (not_lt.mp hx)).le
          · simpa using hmin y hy
        · intro j hj hji
          cases j with
          | zero => simpa using hlt.trans_le (not_lt.mp hx)
          | succ j => exact hfirst j (by simpa using hj) (by omega)


/-- The buffered read loop delivers consecutive frames from the seek
position, one per fuel step, stopping at the end of the decodable range:
it equals an explicit range map. -/
lemma readLoop_eq (v : Video) (fps : ℚ) (second start : ℕ) :
    ∀ (fuel i : ℕ),
      readLoop v fps second start i fuel =
        (List.range (min fuel (v.nFrames - (start + i)))).map
          (fun j => ((second : ℚ) + ((i + j : ℕ) : ℚ) / fps, start + i + j)) := by
  intro fuel
  induction fuel with
  | zero => intro i; simp [readLoop]
  | succ fuel ih =>
    intro i
    rcases hf : frameAt v (start + i) with _ | fr
    · have h0 : v.nFrames - (start + i) = 0 := by
        simp only [frameAt] at hf
        split at hf
        · exact absurd hf (by simp)
        · omega
      simp [readLoop, hf, h0]
    · have hfr : start + i < v.nFrames ∧ start + i = fr := by
        simp only [frameAt] at hf
        split at hf
        · exact ⟨by assumption, by injection hf⟩
        · exact absurd hf (by simp)
      have hmin : min (fuel + 1) (v.nFrames - (start + i)) =
          min fuel (v.nFrames - (start + (i + 1))) + 1 := by omega
      rw [readLoop, hf, ih (i + 1), hmin, List.range_succ_eq_map, List.map_cons, List.map_map]
      obtain ⟨-, rfl⟩ := hfr
      refine congrArg₂ List.cons (by simp) ?_
      refine List.map_congr_left fun j hj => ?_
      have h1 : i + 1 + j = i + (j + 1) := by omega
      have h2 : start + (i + 1) + j = start + i + (j + 1) := by omega
      simp [Function.comp, h1, h2]

/-- The bucket buffer holds `min (⌊fps⌋.toNat + 1) (available frames)`
consecutive frames from the seek position, tagged `second + i / fps`. -/
lemma readBuffer_eq (v : Video) (fps : ℚ) (second start : ℕ) :
    readBuffer v fps second start =
      (List.range (min ((⌊fps⌋).toNat + 1) (v.nFrames - start))).map
        (fun (j : ℕ) => ((second : ℚ) + (j : ℚ) / fps, start + j)) := by
  rw [readBuffer, readLoop_eq]
  simp

/-- C8: in the BufferedWindow strategy, the buffered frame selected for a
record is one minimising the distance between its tag and the record's
elapsed offset, and among equal minima the earliest-decoded (lowest-index)
buffered entry is chosen: every strictly earlier entry has a strictly larger
distance. -/
theorem c8_pick_closest_first_min (t : ℚ) (buf : List (ℚ × ℕ)) (hne : buf ≠ []) :
    ∃ p, ∃ i, ∃ hi : i < buf.length,
      pickClosest t buf = some p ∧ buf.get ⟨i, hi⟩ = p ∧
      (∀ y ∈ buf, |p.1 - t| ≤ |y.1 - t|) ∧
      (∀ j, ∀ hj : j < buf.length, j < i → |p.1 - t| < |(buf.get ⟨j, hj⟩).1 - t|) := by
  match buf with
  | [] => exact absurd rfl hne
  | x :: xs =>
    rcases pickClosestAux_spec t xs (|x.1 - t|) x with ⟨heq, hall⟩ | ⟨i, hi, heq, hlt, hmin, hfirst⟩
    · refine ⟨x, 0, by simp, ?_, rfl, ?_, ?_⟩
      · simp only [pickClosest, heq]
      · intro y hy
        rcases List.mem_cons.mp hy with rfl | hy
        · exact le_refl _
        · exact hall y hy
      · intro j hj hj0; omega
    · refine ⟨xs.get ⟨i, hi⟩, i + 1, by simpa using Nat.succ_lt_succ hi, ?_, by simp, ?_, ?_⟩
      · simp only [pickClosest, heq]
      · intro y hy
        rcases List.mem_cons.mp hy with rfl | hy
        · exact hlt.le
        · exact hmin y hy
      · intro j hj hji
        cases j with
        | zero => simpa using hlt
        | succ j => exact hfirst j (by simpa using hj) (by omega)

/-- Witness for C8 at a concrete three-way tie (`bufTie`, target time 1):
the theorem applies and yields the first entry. -/
theorem c8_pick_closest_first_min_witness :
    ∃ p, ∃ i, ∃ hi : i < bufTie.length,
      pickClosest 1 bufTie = some p ∧ bufTie.get ⟨i, hi⟩ = p ∧
      (∀ y ∈ bufTie, |p.1 - 1| ≤ |y.1 - 1|) ∧
      (∀ j, ∀ hj : j < bufTie.length, j < i → |p.1 - 1| < |(bufTie.get ⟨j, hj⟩).1 - 1|) :=
  c8_pick_closest_first_min 1 bufTie (by decide)

/-- C6 counterexample: at the non-integer rate 3/2 with ten decodable frames
the bucket buffer receives `⌊fps⌋ + 1 = 2` frames even though
`⌈fps⌉ + 1 = 3` frames were available, so the strategy does not decode up to
`ceil(frame_rate) + 1` frames as claimed. -/
theorem c6_buffer_count_counterexample :
    (readBuffer vidC6 (3/2) 0 0).length = 2 ∧
    (⌈(3 : ℚ)/2⌉).toNat + 1 = 3 ∧ vidC6.nFrames = 10 ∧ (2 : ℕ) ≠ 3 := by
  refine ⟨?_, ?_, rfl, by decide⟩
  · with_unfolding_all decide
  · with_unfolding_all decide

/-- C6 (amended): for every frame rate, each bucket whose guard passes seeks
once to `int(second * fps)` and then decodes up to `⌊fps⌋ + 1` (not
`⌈fps⌉ + 1`) consecutive frames into the buffer, the `i`-th entry being
tagged `second + i / fps`. -/
theorem c6_buffer_window_amended (v : Video) (fps : ℚ) (second start : ℕ) :
    readBuffer v fps second start =
      (List.range (min ((⌊fps⌋).toNat + 1) (v.nFrames - start))).map
        (fun (i : ℕ) => ((second : ℚ) + (i : ℚ) / fps, start + i)) ∧
    (∀ (cfg : Env) (grp : ℕ × List (ℚ × Record)),
      ¬((v.reportedFrames : ℚ) ≤ (grp.1 : ℚ) * fps) →
      bucketEvents cfg v fps grp =
        Event.seek ((⌊(grp.1 : ℚ) * fps⌋).toNat) ::
          (grp.2.map (memRecordEvents cfg
            (readBuffer v fps grp.1 ((⌊(grp.1 : ℚ) * fps⌋).toNat)))).flatten) := by
  refine ⟨readBuffer_eq v fps second start, ?_⟩
  intro cfg grp h
  rw [bucketEvents, if_neg h]

/-- Witness for C6 (amended) at the concrete 3/2-rate video: the buffer
characterisation applied at bucket second 0 and a bucket whose guard passes. -/
theorem c6_buffer_window_amended_witness :
    readBuffer vidC6 (3/2) 0 0 =
      (List.range (min ((⌊(3 : ℚ)/2⌋).toNat + 1) (vidC6.nFrames - 0))).map
        (fun (i : ℕ) => ((0 : ℚ) + (i : ℚ) / (3/2), 0 + i)) ∧
    bucketEvents envFull vidC6 (3/2) (0, []) =
      Event.seek ((⌊((0 : ℕ) : ℚ) * (3/2)⌋).toNat) ::
        (([] : List (ℚ × Record)).map (memRecordEvents envFull
          (readBuffer vidC6 (3/2) 0 ((⌊((0 : ℕ) : ℚ) * (3/2)⌋).toNat)))).flatten :=
  ⟨by simpa using (c6_buffer_window_amended vidC6 (3/2) 0 0).1,
   (c6_buffer_window_amended vidC6 (3/2) 0 0).2 envFull (0, [])
     (by with_unfolding_all decide)⟩

/-- C10: `generate_output_filename` ignores the calendar date: two records
with the same user, page and time of day but different dates produce the
identical output file name, hence the identical output path in the shared
output folder (so the later write overwrites the earlier one). -/
theorem c10_output_filename_date_collision (uid : ℕ) (page : String) (ts1 ts2 : DateTime)
    (hh : ts1.hour = ts2.hour) (hm : ts1.minute = ts2.minute) (hs : ts1.second = ts2.second)
    (_hdate : (ts1.year, ts1.month, ts1.day) ≠ (ts2.year, ts2.month, ts2.day)) :
    generate_output_filename uid ts1 page = generate_output_filename uid ts2 page ∧
    ∀ (cfg : Env) (i1 i2 : ℕ),
      outPath cfg ⟨i1, uid, ts1, page⟩ = outPath cfg ⟨i2, uid, ts2, page⟩ := by
  have h : generate_output_filename uid ts1 page = generate_output_filename uid ts2 page := by
    simp [generate_output_filename, hh, hm, hs]
  exact ⟨h, fun cfg i1 i2 => by simp [outPath, h]⟩

/-- Witness for C10: timestamps `tsA` (2023-05-01) and `tsOtherDate`
(2023-06-02) share the time of day 10:15:32 and collide on the same output
file name. -/
theorem c10_output_filename_date_collision_witness :
    generate_output_filename 7 tsA "p" = generate_output_filename 7 tsOtherDate "p" ∧
    ∀ (cfg : Env) (i1 i2 : ℕ),
      outPath cfg ⟨i1, 7, tsA, "p"⟩ = outPath cfg ⟨i2, 7, tsOtherDate, "p"⟩ :=
  c10_output_filename_date_collision 7 "p" tsA tsOtherDate rfl rfl rfl (by decide)

/-- C9: with a parseable recording start time, `process_video_group` selects
the memory-efficient (BufferedWindow) strategy exactly when the group holds
more than 10 records and the OpenCV (DirectSeek) strategy otherwise; in
particular a 10-record group uses DirectSeek and an 11-record group uses
BufferedWindow. -/
theorem c9_threshold_dispatch (cfg : Env) (vpath : List Char) (records : List Record)
    (vstart : DateTime) (hparse : extract_video_start_time vpath = some vstart) :
    process_video_group cfg vpath records =
      (if 10 < records.length then extract_frames_memory_efficient cfg vpath records vstart
       else extract_frames_opencv_gpu cfg vpath records vstart) ∧
    (records.length = 10 →
      process_video_group cfg vpath records = extract_frames_opencv_gpu cfg vpath records vstart) ∧
    (records.length = 11 →
      process_video_group cfg vpath records =
        extract_frames_memory_efficient cfg vpath records vstart) := by
  have base : process_video_group cfg vpath records =
      if 10 < records.length then extract_frames_memory_efficient cfg vpath records vstart
      else extract_frames_opencv_gpu cfg vpath records vstart := by
    simp only [process_video_group, hparse]
  refine ⟨base, fun h10 => ?_, fun h11 => ?_⟩
  · rw [base, h10, if_neg (by omega)]
  · rw [base, h11, if_pos (by omega)]

/-- Witness for C9: the scenario recording parses, a 10-record group runs
DirectSeek and an 11-record group runs BufferedWindow. -/
theorem c9_threshold_dispatch_witness :
    process_video_group envFull fileA recsTen =
      extract_frames_opencv_gpu envFull fileA recsTen startA ∧
    process_video_group envFull fileA recsElevenSame =
      extract_frames_memory_efficient envFull fileA recsElevenSame startA :=
  ⟨(c9_threshold_dispatch envFull fileA recsTen startA
      (by with_unfolding_all decide)).2.1 (by decide),
   (c9_threshold_dispatch envFull fileA recsElevenSame startA
      (by with_unfolding_all decide)).2.2 (by decide)⟩

/-- C7: `find_video_file` never returns a date-only match while an
hour-specific match exists, and returns nothing when no pattern matches:
if some directory entry matches an hour-specific pattern the result is an
hour-specific match, and if no entry matches any of the four patterns the
result is `none` (the record then stays unresolved). -/
theorem c7_hour_priority (cfg : Env) (uid : ℕ) (ts : DateTime) :
    ((∃ n, n ∈ cfg.dir ∧ hourPatMatch uid ts n = true) →
      ∃ m, find_video_file cfg uid ts = some m ∧ hourPatMatch uid ts m = true) ∧
    ((∀ n, n ∈ cfg.dir → hourPatMatch uid ts n = false ∧ datePatMatch uid ts n = false) →
      find_video_file cfg uid ts = none) := by
  constructor
  · rintro ⟨n, hn, hm⟩
    rcases h1 : cfg.dir.filter (fun n => globMatch (userHourPre uid ts) (".mp4".data) n) with
      _ | ⟨f, fs⟩
    · rcases h2 : cfg.dir.filter (fun n => globMatch (userHourPre uid ts) (".mkv".data) n) with
        _ | ⟨f, fs⟩
      · exfalso
        rcases Bool.or_eq_true_iff.mp hm with hmp | hmk
        · have : n ∈ cfg.dir.filter (fun n => globMatch (userHourPre uid ts) (".mp4".data) n) :=
            List.mem_filter.mpr ⟨hn, hmp⟩
          rw [h1] at this
          exact absurd this (List.not_mem_nil n)
        · have : n ∈ cfg.dir.filter (fun n => globMatch (userHourPre uid ts) (".mkv".data) n) :=
            List.mem_filter.mpr ⟨hn, hmk⟩
          rw [h2] at this
          exact absurd this (List.not_mem_nil n)
      · refine ⟨f, ?_, ?_⟩
        · rw [find_video_file, h1, h2]
        · have : f ∈ cfg.dir.filter (fun n => globMatch (userHourPre uid ts) (".mkv".data) n) :=
            h2 ▸ List.mem_cons_self f fs
          exact Bool.or_eq_true_iff.mpr (Or.inr (List.mem_filter.mp this).2)
    · refine ⟨f, ?_, ?_⟩
      · rw [find_video_file, h1]
      · have : f ∈ cfg.dir.filter (fun n => globMatch (userHourPre uid ts) (".mp4".data) n) :=
          h1 ▸ List.mem_cons_self f fs
        exact Bool.or_eq_true_iff.mpr (Or.inl (List.mem_filter.mp this).2)
  · intro h
    have h1 : cfg.dir.filter (fun n => globMatch (userHourPre uid ts) (".mp4".data) n) = [] :=
      List.filter_eq_nil_iff.mpr (fun n hn => by
        have := (h n hn).1
        simp only [hourPatMatch, Bool.or_eq_false_iff] at this
        simp [this.1])
    have h2 : cfg.dir.filter (fun n => globMatch (userHourPre uid ts) (".mkv".data) n) = [] :=
      List.filter_eq_nil_iff.mpr (fun n hn => by
        have := (h n hn).1
        simp only [hourPatMatch, Bool.or_eq_false_iff] at this
        simp [this.2])
    have h3 : cfg.dir.filter (fun n => globMatch (userDatePre uid ts) (".mp4".data) n) = [] :=
      List.filter_eq_nil_iff.mpr (fun n hn => by
        have := (h n hn).2
        simp only [datePatMatch, Bool.or_eq_false_iff] at this
        simp [this.1])
    have h4 : cfg.dir.filter (fun n => globMatch (userDatePre uid ts) (".mkv".data) n) = [] :=
      List.filter_eq_nil_iff.mpr (fun n hn => by
        have := (h n hn).2
        simp only [datePatMatch, Bool.or_eq_false_iff] at this
        simp [this.2])
    rw [find_video_file, h1, h2, h3, h4]
    rfl

/-- Witness for C7: with a date-only match listed before the hour match in
the folder, the locator still returns an hour-specific match; and on an
empty folder it returns `none`. -/
theorem c7_hour_priority_witness :
    (∃ m, find_video_file envFind 7 tsA = some m ∧ hourPatMatch 7 tsA m = true) ∧
    find_video_file { envFind with dir := [] } 7 tsA = none :=
  ⟨(c7_hour_priority envFind 7 tsA).1
      ⟨fileA, by with_unfolding_all decide, by with_unfolding_all decide⟩,
   (c7_hour_priority { envFind with dir := [] } 7 tsA).2 (fun n hn => absurd hn (List.not_mem_nil n))⟩

/-- When the head of the buffer sits exactly at the target time, the
closest-frame scan returns the head (no later entry can be strictly closer
than distance zero). -/
lemma pickClosest_head_zero (t : ℚ) (x : ℚ × ℕ) (xs : List (ℚ × ℕ)) (hx : x.1 = t) :
    pickClosest t (x :: xs) = some x := by
  have h0 : |x.1 - t| = 0 := by rw [hx, sub_self, abs_zero]
  simp only [pickClosest]
  rw [pickClosestAux_keep t xs _ x (fun y hy => by rw [h0]; exact abs_nonneg _)]

/-- Every seek and every write of the DirectSeek per-record step for a
record with nonnegative elapsed offset targets frame `int(elapsed * fps)`. -/
lemma opencvRecord_events (cfg : Env) (v : Video) (fps : ℚ) (vstart : DateTime) (r : Record)
    (ht : 0 ≤ elapsedSecs r.timestamp vstart) :
    ∀ e ∈ opencvRecord cfg v fps vstart r,
      (∀ n, e = Event.seek n → n = (⌊elapsedSecs r.timestamp vstart * fps⌋).toNat) ∧
      (∀ p fr, e = Event.write p fr → fr = (⌊elapsedSecs r.timestamp vstart * fps⌋).toNat) := by
  intro e he
  simp only [opencvRecord, if_neg (not_lt.2 ht)] at he
  split at he
  · rcases List.mem_cons.mp he with rfl | he
    · exact ⟨fun n hn => by injection hn with h; exact h.symm,
        fun p fr hw => Event.noConfusion hw⟩
    · have he2 : e = Event.emit (Outcome.err
          (FailMsg.couldNotReadFrame (elapsedSecs r.timestamp vstart))) := by
        simpa using he
      subst he2
      exact ⟨fun n hn => Event.noConfusion hn, fun p fr hw => Event.noConfusion hw⟩
  · rename_i fr heq
    have hfr : fr = (⌊elapsedSecs r.timestamp vstart * fps⌋).toNat := by
      simp only [frameAt] at heq
      split at heq
      · injection heq with h
        exact h.symm
      · exact Option.noConfusion heq
    rcases List.mem_cons.mp he with rfl | he
    · exact ⟨fun n hn => by injection hn with h; exact h.symm,
        fun p fr2 hw => Event.noConfusion hw⟩
    · rcases List.mem_cons.mp he with rfl | he
      · exact ⟨fun n hn => Event.noConfusion hn,
          fun p fr2 hw => by injection hw with h1 h2; rw [← h2, hfr]⟩
      · split at he
        · have he2 : e = Event.emit (Outcome.ok (outPath cfg r)) := by simpa using he
          subst he2
          exact ⟨fun n hn => Event.noConfusion hn, fun p fr2 hw2 => Event.noConfusion hw2⟩
        · have he2 : e = Event.emit (Outcome.err
              (FailMsg.couldNotSaveFrameTo (outPath cfg r))) := by simpa using he
          subst he2
          exact ⟨fun n hn => Event.noConfusion hn, fun p fr2 hw2 => Event.noConfusion hw2⟩

/-- C4: for a record with nonnegative elapsed offset against a recording
with known start time and positive frame rate, the frame targeted for that
record is exactly `⌊elapsed * fps⌋` under both strategies: every DirectSeek
seek and write targets it, and the buffered frame selected for the record
inside its BufferedWindow bucket (bucket `⌊elapsed⌋`, seek position
`int(second * fps)`) is it as well.  Record timestamps and recording start
times are whole seconds in this program, which is what makes the
BufferedWindow selection exact. -/
theorem c4_frame_index_exact (cfg : Env) (v : Video) (vstart : DateTime) (r : Record)
    (fps : ℚ) (hfps : 0 < fps) (ht : 0 ≤ elapsedSecs r.timestamp vstart) :
    (∀ n, Event.seek n ∈ opencvRecord cfg v fps vstart r →
      (n : ℤ) = ⌊elapsedSecs r.timestamp vstart * fps⌋) ∧
    (∀ p fr, Event.write p fr ∈ opencvRecord cfg v fps vstart r →
      (fr : ℤ) = ⌊elapsedSecs r.timestamp vstart * fps⌋) ∧
    (∀ q, pickClosest (elapsedSecs r.timestamp vstart)
        (readBuffer v fps ((⌊elapsedSecs r.timestamp vstart⌋).toNat)
          ((⌊((⌊elapsedSecs r.timestamp vstart⌋).toNat : ℚ) * fps⌋).toNat)) = some q →
      (q.2 : ℤ) = ⌊elapsedSecs r.timestamp vstart * fps⌋) := by
  have hfl0 : 0 ≤ ⌊elapsedSecs r.timestamp vstart * fps⌋ :=
    Int.floor_nonneg.2 (mul_nonneg ht hfps.le)
  have hcast : (((⌊elapsedSecs r.timestamp vstart * fps⌋).toNat : ℕ) : ℤ) =
      ⌊elapsedSecs r.timestamp vstart * fps⌋ := Int.toNat_of_nonneg hfl0
  have hz0 : (0 : ℤ) ≤ r.timestamp.toSecs - vstart.toSecs := by
    have := ht
    rw [elapsedSecs] at this
    exact_mod_cast this
  have hsec : (((⌊elapsedSecs r.timestamp vstart⌋).toNat : ℕ) : ℚ) =
      elapsedSecs r.timestamp vstart := by
    rw [elapsedSecs, Int.floor_intCast]
    exact_mod_cast Int.toNat_of_nonneg hz0
  refine ⟨?_, ?_, ?_⟩
  · intro n hn
    have h := (opencvRecord_events cfg v fps vstart r ht _ hn).1 n rfl
    rw [h]
    exact hcast
  · intro p fr hw
    have h := (opencvRecord_events cfg v fps vstart r ht _ hw).2 p fr rfl
    rw [h]
    exact hcast
  · intro q hq
    rw [hsec, readBuffer_eq] at hq
    rcases hk : min ((⌊fps⌋).toNat + 1)
        (v.nFrames - (⌊elapsedSecs r.timestamp vstart * fps⌋).toNat) with _ | m
    · rw [hk] at hq
      simp [pickClosest] at hq
    · rw [hk, List.range_succ_eq_map, List.map_cons] at hq
      rw [pickClosest_head_zero (elapsedSecs r.timestamp vstart) _ _ (by simp [hsec])] at hq
      injection hq with h
      rw [← h]
      simpa using hcast

/-- Witness for C4 at the spec scenario (user 7, start 10:15:00, record
10:15:32, 30 fps): elapsed 32 s, frame index 960 under both strategies. -/
theorem c4_frame_index_exact_witness :
    (0 : ℚ) ≤ elapsedSecs (recA 0).timestamp startA ∧
    (((960 : ℕ) : ℤ) = ⌊elapsedSecs (recA 0).timestamp startA * 30⌋) ∧
    ((((32 : ℚ), (960 : ℕ)).2 : ℤ) = ⌊elapsedSecs (recA 0).timestamp startA * 30⌋) := by
  have ht : (0 : ℚ) ≤ elapsedSecs (recA 0).timestamp startA := by with_unfolding_all decide
  have h := c4_frame_index_exact envFull vidFull startA (recA 0) 30 (by norm_num) ht
  refine ⟨ht, ?_, ?_⟩
  · exact h.1 960 (by with_unfolding_all decide)
  · exact h.2.2 ((32 : ℚ), 960) (by with_unfolding_all decide)

/-- Lists mapped to a constant `some` filter back to the constant map. -/
lemma filterMap_const_some {α β : Type} (b : β) (l : List α) :
    l.filterMap (fun _ => some b) = l.map (fun _ => b) := by
  induction l with
  | nil => rfl
  | cons x xs ih => simp [List.filterMap_cons, ih]

/-- C5: 11 records against a recording whose frame count is unreported
(`CAP_PROP_FRAME_COUNT` 0) run the BufferedWindow strategy, and the result
is a per-record map: each bucketed record contributes the outcome
`Failure (frameBeyondDuration)` computed from that record alone, so a
record's outcome does not depend on the presence or outcomes of the other
ten records (records with negative elapsed offset contribute no outcome,
equally independently of the rest). -/
theorem c5_buffered_outcomes_pointwise (cfg : Env) (vpath : List Char)
    (records : List Record) (vstart : DateTime)
    (hparse : extract_video_start_time vpath = some vstart)
    (hlen : records.length = 11)
    (hopen : (cfg.video vpath).opened = true)
    (hunk : (cfg.video vpath).reportedFrames = 0) :
    process_video_group cfg vpath records =
      ((sortStable bucketLe (timeGroups vstart records)).map
        (fun g => g.2.map (fun _ => Outcome.err FailMsg.frameBeyondDuration))).flatten := by
  have hdisp : process_video_group cfg vpath records =
      extract_frames_memory_efficient cfg vpath records vstart := by
    simp only [process_video_group, hparse]
    rw [if_pos (by omega)]
  rw [hdisp, extract_frames_memory_efficient, memEvents]
  rw [hopen]
  rw [if_neg (by simp)]
  set v := cfg.video vpath with hv
  set fps := if v.fps ≤ 0 then (30 : ℚ) else v.fps with hfpsdef
  have hfps0 : 0 ≤ fps := by
    rw [hfpsdef]
    by_cases h : v.fps ≤ 0
    · rw [if_pos h]; norm_num
    · rw [if_neg h]; exact (not_le.mp h).le
  have hbe : ∀ g ∈ sortStable bucketLe (timeGroups vstart records),
      bucketEvents cfg v fps g =
        g.2.map (fun _ => Event.emit (Outcome.err FailMsg.frameBeyondDuration)) := by
    intro g _
    have hcond : ((v.reportedFrames : ℤ) : ℚ) ≤ (g.1 : ℚ) * fps := by
      rw [hunk]
      push_cast
      exact mul_nonneg (Nat.cast_nonneg g.1) hfps0
    rw [bucketEvents, if_pos hcond]
  show List.filterMap outcomeOf
      ((List.map (bucketEvents cfg v fps) (sortStable bucketLe (timeGroups vstart records))).flatten) =
    ((sortStable bucketLe (timeGroups vstart records)).map
      (fun g => g.2.map (fun _ => Outcome.err FailMsg.frameBeyondDuration))).flatten
  rw [List.map_congr_left hbe, List.filterMap_flatten, List.map_map]
  refine congrArg List.flatten (List.map_congr_left fun g _ => ?_)
  show List.filterMap outcomeOf
      (g.2.map (fun _ => Event.emit (Outcome.err FailMsg.frameBeyondDuration))) = _
  rw [List.filterMap_map]
  exact filterMap_const_some _ _

/-- Witness for C5: the eleven scenario records against the
unreported-frame-count recording. -/
theorem c5_buffered_outcomes_pointwise_witness :
    process_video_group envUnknown fileA recsEleven =
      ((sortStable bucketLe (timeGroups startA recsEleven)).map
        (fun g => g.2.map (fun _ => Outcome.err FailMsg.frameBeyondDuration))).flatten :=
  c5_buffered_outcomes_pointwise envUnknown fileA recsEleven startA
    (by with_unfolding_all decide) (by decide) rfl rfl

/-- C1: the accounting identity fails on this program.  Eleven records all
resolve to the scenario recording (`unresolved = 0`), one of them is
timestamped before the recording start, and the group (being larger than
10) runs the BufferedWindow strategy, which silently drops the
negative-elapsed record: the run reports 0 successes and 10 failures, so
`successes + failures + unresolved = 10 ≠ 11 = total records`. -/
theorem c1_accounting_identity_fails :
    process_all_records envUnknown recsEleven = (0, 10) ∧
    unresolvedCount envUnknown recsEleven = 0 ∧
    recsEleven.length = 11 ∧ 0 + 10 + 0 ≠ 11 := by
  refine ⟨?_, ?_, by decide, by decide⟩
  · with_unfolding_all decide
  · with_unfolding_all decide

/-- C2: the BufferedWindow strategy violates one-outcome-per-record: for a
single input record timestamped before the recording start it returns an
empty result list (zero outcomes for that record) even though the capture
opens. -/
theorem c2_buffered_window_drops_negative_record :
    extract_frames_memory_efficient envFull fileA [recNegA] startA = [] ∧
    [recNegA].length = 1 := by
  refine ⟨?_, rfl⟩
  with_unfolding_all decide

/-- C3: for a record with negative elapsed offset, DirectSeek emits
`Failure (timestampBeforeStart)` and performs no seek, but BufferedWindow
produces no event at all for it — in particular no seek, but also not the
`TimestampBeforeStart` outcome the claim requires. -/
theorem c3_negative_elapsed_outcomes :
    extract_frames_opencv_gpu envFull fileA [recNegA] startA
      = [Outcome.err FailMsg.timestampBeforeStart] ∧
    (opencvEvents envFull fileA [recNegA] startA).filterMap seekOf = [] ∧
    memEvents envFull fileA [recNegA] startA = [] := by
  refine ⟨?_, ?_, ?_⟩ <;> with_unfolding_all decide
